import Mathlib

/-!
Shallow embedding of the nanocat media pipeline core, translated from
`src/nanocat`:

* `nanocat/audio/utils.py` — the SOXR resampler identity branch.
* `nanocat/transports/base_output.py` — `BaseOutputTransport` frame routing
  and the per-destination `MediaSender` (audio chunking, clock queue,
  bot-speaking lifecycle, interruption handling, task helpers).
* `nanocat/playground/transport/base_input.py` — `BaseInputTransport`
  constructor, start, VAD handling and the audio worker.
* `nanocat/serializers/protobuf.py` — `ProtobufFrameSerializer`.

Bytes are modelled as `List Nat`, task handles as `Option Nat`, Python
`Optional[int]` fields as `Option Nat`.  Python truthiness (`if value:`)
is modelled explicitly where the source relies on it.
-/

namespace Nanocat

/-! ## Resampler (`nanocat/audio/utils.py`, `SOXRAudioResampler.resample`) -/

/-- Embedding of `SOXRAudioResampler.resample`.  The external `soxr.resample`
library call is an uninterpreted parameter `soxr`; the source returns the
input unchanged when `in_rate == out_rate` and otherwise defers to soxr. -/
def SOXRAudioResampler.resample (soxr : List Nat → Nat → Nat → List Nat)
    (audio : List Nat) (in_rate out_rate : Nat) : List Nat :=
  if in_rate = out_rate then audio else soxr audio in_rate out_rate

/-! ## Output transport data model (`nanocat/transports/base_output.py`) -/

/-- Concrete Python class of an audio frame (`type(frame)` in
`handle_audio_frame`); `TTSAudioRawFrame` is a subclass of
`OutputAudioRawFrame`. -/
inductive AudioClass where
  | outputAudioRaw
  | ttsAudioRaw
deriving DecidableEq, Repr

/-- Payload of an `OutputAudioRawFrame`: `audio` bytes, `sample_rate`,
`num_channels`, together with the concrete class tag. -/
structure OutFrame where
  cls : AudioClass
  audio : List Nat
  sample_rate : Nat
  num_channels : Nat
deriving DecidableEq, Repr

/-- Direction of a `push_frame` call (`FrameDirection`). -/
inductive Dir where
  | downstream
  | upstream
deriving DecidableEq, Repr

/-- A `BotStartedSpeakingFrame` / `BotStoppedSpeakingFrame` emission:
`isStart` tags the variant, `dir` the push direction, `dest` the
`transport_destination` set on the frame. -/
structure BotEv where
  isStart : Bool
  dir : Dir
  dest : Option String
deriving DecidableEq, Repr

/-- Entry of the sender's `clock_queue`: the tuple `(pts, frame.id, frame)`
put by `handle_timed_frame` (and `(sys.maxsize, frame.id, EndFrame)` by
`stop`).  `asyncio.PriorityQueue` orders tuples lexicographically; frame ids
are unique, so the frame itself is never compared. -/
structure ClockEntry where
  pts : Nat
  fid : Nat
  isEnd : Bool
  payload : Nat
deriving DecidableEq, Repr

/-- Configuration a `MediaSender` closes over: constructor arguments
(`destination`, `sample_rate`, `audio_chunk_size`) plus the `TransportParams`
field `audio_out_enabled` and the transport's `interruptions_allowed`. -/
structure SenderCfg where
  destination : Option String
  sample_rate : Nat
  audio_chunk_size : Nat
  audio_out_enabled : Bool
  interruptions_allowed : Bool
deriving DecidableEq, Repr

/-- Mutable state of a `MediaSender`.  `liveAudio` / `liveClock` are ghost
fields recording the ids of spawned-but-not-cancelled tasks, used to state
the single-live-task invariant; `nextTaskId` feeds fresh ids. -/
structure SenderState where
  audio_buffer : List Nat
  bot_speaking : Bool
  audio_queue : List OutFrame
  clock_queue : List ClockEntry
  audio_task : Option Nat
  clock_task : Option Nat
  liveAudio : List Nat
  liveClock : List Nat
  nextTaskId : Nat
deriving DecidableEq, Repr

namespace MediaSender

/-- State installed by `MediaSender.__init__`: empty buffer, not speaking,
no tasks. -/
def new : SenderState :=
  { audio_buffer := []
    bot_speaking := false
    audio_queue := []
    clock_queue := []
    audio_task := none
    clock_task := none
    liveAudio := []
    liveClock := []
    nextTaskId := 0 }

/-- Embedding of `_create_audio_task`: no-op when the handle is set,
otherwise installs a fresh `audio_queue` and spawns the task. -/
def createAudioTask (s : SenderState) : SenderState :=
  match s.audio_task with
  | some _ => s
  | none =>
      { s with
        audio_queue := []
        audio_task := some s.nextTaskId
        liveAudio := s.nextTaskId :: s.liveAudio
        nextTaskId := s.nextTaskId + 1 }

/-- Embedding of `_cancel_audio_task`: cancels the live task and resets the
handle to `None`; no-op when the handle is unset. -/
def cancelAudioTask (s : SenderState) : SenderState :=
  match s.audio_task with
  | some t => { s with audio_task := none, liveAudio := s.liveAudio.erase t }
  | none => s

/-- Embedding of `_create_clock_task`: no-op when the handle is set,
otherwise installs a fresh `clock_queue` and spawns the task. -/
def createClockTask (s : SenderState) : SenderState :=
  match s.clock_task with
  | some _ => s
  | none =>
      { s with
        clock_queue := []
        clock_task := some s.nextTaskId
        liveClock := s.nextTaskId :: s.liveClock
        nextTaskId := s.nextTaskId + 1 }

/-- Embedding of `_cancel_clock_task`. -/
def cancelClockTask (s : SenderState) : SenderState :=
  match s.clock_task with
  | some t => { s with clock_task := none, liveClock := s.liveClock.erase t }
  | none => s

/-- Embedding of `MediaSender.start`: reset the audio buffer, then create
the clock task and the audio task (in that order, as the source does). -/
def start (s : SenderState) : SenderState :=
  createAudioTask (createClockTask { s with audio_buffer := [] })

/-- Embedding of `_bot_started_speaking`: when not yet speaking, push a
`BotStartedSpeakingFrame` downstream and upstream (each carrying
`transport_destination = destination`) and set the flag. -/
def botStartedSpeaking (cfg : SenderCfg) (s : SenderState) :
    SenderState × List BotEv :=
  if s.bot_speaking then (s, [])
  else
    ({ s with bot_speaking := true },
     [⟨true, Dir.downstream, cfg.destination⟩, ⟨true, Dir.upstream, cfg.destination⟩])

/-- Embedding of `_bot_stopped_speaking`: when speaking, push the
`BotStoppedSpeakingFrame` pair, clear the flag, and clear `audio_buffer`. -/
def botStoppedSpeaking (cfg : SenderCfg) (s : SenderState) :
    SenderState × List BotEv :=
  if s.bot_speaking then
    ({ s with bot_speaking := false, audio_buffer := [] },
     [⟨false, Dir.downstream, cfg.destination⟩, ⟨false, Dir.upstream, cfg.destination⟩])
  else (s, [])

/-- Embedding of `handle_interruptions`: nothing when interruptions are not
allowed; otherwise cancel both tasks, recreate them (fresh queues), then run
`_bot_stopped_speaking`. -/
def handleInterruptions (cfg : SenderCfg) (s : SenderState) :
    SenderState × List BotEv :=
  if cfg.interruptions_allowed then
    botStoppedSpeaking cfg
      (createAudioTask (createClockTask (cancelClockTask (cancelAudioTask s))))
  else (s, [])

/-- Embedding of the `while len(self._audio_buffer) >= self._audio_chunk_size`
loop of `handle_audio_frame`, returning the sliced chunks in order and the
remaining buffer.  The loop strictly shrinks the buffer whenever
`0 < csize`, so fuel `buf.length` is enough; (with `csize = 0` the Python
loop never terminates, matched here only up to the fuel bound). -/
def chunkAux (csize : Nat) : Nat → List Nat → List (List Nat) × List Nat
  | 0, buf => ([], buf)
  | fuel + 1, buf =>
      if csize ≤ buf.length then
        let res := chunkAux csize fuel (buf.drop csize)
        (buf.take csize :: res.1, res.2)
      else ([], buf)

/-- The chunking loop run with enough fuel to terminate. -/
def chunkLoop (csize : Nat) (buf : List Nat) : List (List Nat) × List Nat :=
  chunkAux csize buf.length buf

/-- Embedding of `handle_audio_frame`: drop when `audio_out_enabled` is
false; otherwise resample to the sender rate, extend `audio_buffer`, and
enqueue one frame of the same concrete class per full chunk, carrying the
chunk bytes, the sender's `sample_rate` and the source `num_channels`. -/
def handleAudioFrame (soxr : List Nat → Nat → Nat → List Nat)
    (cfg : SenderCfg) (f : OutFrame) (s : SenderState) : SenderState :=
  if cfg.audio_out_enabled then
    let resampled := SOXRAudioResampler.resample soxr f.audio f.sample_rate cfg.sample_rate
    let res := chunkLoop cfg.audio_chunk_size (s.audio_buffer ++ resampled)
    { s with
      audio_buffer := res.2
      audio_queue := s.audio_queue ++
        res.1.map (fun c => ⟨f.cls, c, cfg.sample_rate, f.num_channels⟩) }
  else s

/-- Embedding of `handle_timed_frame`: put `(frame.pts, frame.id, frame)`
on the clock queue. -/
def handleTimedFrame (e : ClockEntry) (s : SenderState) : SenderState :=
  { s with clock_queue := s.clock_queue ++ [e] }

/-! ### Clock worker (`_clock_task_handler`)

`asyncio.PriorityQueue.get` returns the entry with the smallest
`(pts, id, frame)` tuple; ids are unique, so the order is the lexicographic
order on `(pts, fid)`. -/

/-- Lexicographic priority order on clock entries, as compared by
`asyncio.PriorityQueue` on the `(pts, id, frame)` tuples. -/
def entryLe (a b : ClockEntry) : Bool :=
  Nat.blt a.pts b.pts || (a.pts == b.pts && Nat.ble a.fid b.fid)

/-- The minimal entry (w.r.t. `entryLe`) among `m` and `l`; the earlier
element wins ties, matching a stable priority pop on distinct keys. -/
def selMin (m : ClockEntry) : List ClockEntry → ClockEntry
  | [] => m
  | x :: xs => if entryLe m x then selMin m xs else selMin x xs

/-- Embedding of one `self._clock_queue.get()`: remove and return the entry
with the smallest `(pts, id)` key; `none` on an empty queue (where the
Python task would block). -/
def popMin : List ClockEntry → Option (ClockEntry × List ClockEntry)
  | [] => none
  | x :: xs =>
      let m := selMin x xs
      some (m, (x :: xs).erase m)

/-- Nanoseconds the clock worker sleeps before pushing a frame whose
priority timestamp is `pts` when the clock reads `now`: the source sleeps
`timestamp - current_time` only when `timestamp > current_time`. -/
def clockWaitNs (now pts : Nat) : Nat :=
  if now < pts then pts - now else 0

theorem selMin_mem (m : ClockEntry) (l : List ClockEntry) :
    selMin m l = m ∨ selMin m l ∈ l := by
  induction l generalizing m with
  | nil => exact Or.inl rfl
  | cons x xs ih =>
      simp only [selMin]
      by_cases h : entryLe m x
      · simp only [h, if_pos]
        rcases ih m with h1 | h1
        · exact Or.inl h1
        · exact Or.inr (List.mem_cons_of_mem _ h1)
      · simp only [h, if_neg, Bool.false_eq_true, not_false_iff]
        rcases ih x with h1 | h1
        · exact Or.inr (by rw [h1]; exact List.mem_cons_self _ _)
        · exact Or.inr (List.mem_cons_of_mem _ h1)

theorem popMin_length {q : List ClockEntry} {m : ClockEntry}
    {rest : List ClockEntry} (h : popMin q = some (m, rest)) :
    rest.length < q.length := by
  cases q with
  | nil => simp [popMin] at h
  | cons x xs =>
      simp only [popMin, Option.some.injEq, Prod.mk.injEq] at h
      obtain ⟨hm, hrest⟩ := h
      have hmem : m ∈ x :: xs := by
        rcases selMin_mem x xs with h1 | h1
        · rw [← hm, h1]; exact List.mem_cons_self _ _
        · rw [← hm]; exact List.mem_cons_of_mem _ h1
      have hlen := List.length_erase_of_mem hmem
      rw [← hrest, hm, hlen]
      simp [List.length_cons]

/-- The total release behaviour of `_clock_task_handler`: repeatedly pop the
minimal `(pts, id, frame)` entry; stop at an `EndFrame`; otherwise record the
released frame together with the nanoseconds slept, reading the clock as
`clock i` on the i-th iteration. -/
def clockRun (clock : Nat → Nat) (i : Nat) (q : List ClockEntry) :
    List (ClockEntry × Nat) :=
  match h : popMin q with
  | none => []
  | some (m, rest) =>
      if m.isEnd then []
      else (m, clockWaitNs (clock i) m.pts) :: clockRun clock (i + 1) rest
termination_by q.length
decreasing_by exact popMin_length h

/-! ### Timelines over the bot-speaking lifecycle and the task helpers -/

/-- A call in a `MediaSender` bot-speaking timeline. -/
inductive BotCall where
  | started
  | stopped
deriving DecidableEq, Repr

/-- Run a sequence of `_bot_started_speaking` / `_bot_stopped_speaking`
calls, collecting every pushed frame in push order. -/
def botRun (cfg : SenderCfg) : SenderState → List BotCall → SenderState × List BotEv
  | s, [] => (s, [])
  | s, c :: cs =>
      let step :=
        match c with
        | BotCall.started => botStartedSpeaking cfg s
        | BotCall.stopped => botStoppedSpeaking cfg s
      let rest := botRun cfg step.1 cs
      (rest.1, step.2 ++ rest.2)

/-- Operations of a `MediaSender` that touch the task handles. -/
inductive SenderOp where
  | createAudio
  | cancelAudio
  | createClock
  | cancelClock
  | interrupt
  | startOp
  | cancelFrame
deriving DecidableEq, Repr

/-- Apply one task-touching operation: the four private helpers,
`handle_interruptions`, `start`, and `cancel` (which cancels both tasks). -/
def applyOp (cfg : SenderCfg) (s : SenderState) : SenderOp → SenderState
  | SenderOp.createAudio => createAudioTask s
  | SenderOp.cancelAudio => cancelAudioTask s
  | SenderOp.createClock => createClockTask s
  | SenderOp.cancelClock => cancelClockTask s
  | SenderOp.interrupt => (handleInterruptions cfg s).1
  | SenderOp.startOp => start s
  | SenderOp.cancelFrame => cancelClockTask (cancelAudioTask s)

/-- Apply a sequence of task-touching operations. -/
def applyOps (cfg : SenderCfg) (s : SenderState) (ops : List SenderOp) :
    SenderState :=
  ops.foldl (applyOp cfg) s

end MediaSender

/-- Strict alternation of a boolean event sequence: each element must equal
the expected flag, which flips after every event. -/
def altFrom : Bool → List Bool → Bool
  | _, [] => true
  | e, b :: r => (b == e) && altFrom (!e) r

/-- The `isStart` tags of the events pushed in direction `d`, in order. -/
def projDir (d : Dir) (evs : List BotEv) : List Bool :=
  (evs.filter (fun e => e.dir == d)).map (fun e => e.isStart)

/-! ## BaseOutputTransport frame routing
(`base_output.py`, `process_frame` / `_handle_frame` / `start`) -/

/-- Python truthiness of the optional `frame.pts` field: `None` and `0` are
falsy, any other integer is truthy (`elif frame.pts:` in the source). -/
def ptsTruthy : Option Nat → Bool
  | none => false
  | some p => p != 0

/-- Classification of a frame as seen by the `isinstance` chain of
`BaseOutputTransport.process_frame`.  `otherFrame` is any frame that is none
of the earlier cases (not a system frame, not audio). -/
inductive OutKind where
  | startFrame
  | cancelFrame
  | startInterruption
  | stopInterruption
  | urgentMessage
  | otherSystem
  | endFrame
  | outputAudio
  | otherFrame
deriving DecidableEq, Repr

/-- Action `BaseOutputTransport.process_frame` takes on a frame. -/
inductive OutAction where
  | pushThenStart
  | cancelThenPush
  | pushThenHandle
  | sendMessage
  | pushSystem
  | stopThenPush
  | handleFrame
  | pushUpstream
deriving DecidableEq, Repr

/-- Embedding of the `process_frame` dispatch chain of
`BaseOutputTransport`, in source order. -/
def processFrameAction (k : OutKind) (pts : Option Nat) (dir : Dir) : OutAction :=
  match k with
  | OutKind.startFrame => OutAction.pushThenStart
  | OutKind.cancelFrame => OutAction.cancelThenPush
  | OutKind.startInterruption => OutAction.pushThenHandle
  | OutKind.stopInterruption => OutAction.pushThenHandle
  | OutKind.urgentMessage => OutAction.sendMessage
  | OutKind.otherSystem => OutAction.pushSystem
  | OutKind.endFrame => OutAction.stopThenPush
  | OutKind.outputAudio => OutAction.handleFrame
  | OutKind.otherFrame =>
      if ptsTruthy pts then OutAction.handleFrame
      else if dir = Dir.upstream then OutAction.pushUpstream
      else OutAction.handleFrame

/-- Dispatch performed by `BaseOutputTransport._handle_frame` once a frame
reaches it. -/
inductive SenderDispatch where
  | dropped
  | interruptions
  | audioFrame
  | timedFrame
  | syncFrame
deriving DecidableEq, Repr

/-- Embedding of `_handle_frame`: unknown destinations are dropped with a
warning; otherwise `StartInterruptionFrame` goes to `handle_interruptions`,
`OutputAudioRawFrame` to `handle_audio_frame`, frames with truthy `pts` to
`handle_timed_frame`, and everything else to `handle_sync_frame`. -/
def handleFrameDispatch (k : OutKind) (pts : Option Nat) (registered : Bool) :
    SenderDispatch :=
  if registered then
    if k = OutKind.startInterruption then SenderDispatch.interruptions
    else if k = OutKind.outputAudio then SenderDispatch.audioFrame
    else if ptsTruthy pts then SenderDispatch.timedFrame
    else SenderDispatch.syncFrame
  else SenderDispatch.dropped

/-- Sample-rate resolution in `BaseOutputTransport.start`:
`self._params.audio_out_sample_rate or frame.audio_out_sample_rate`
(Python `or` falls through on falsy values, i.e. `None` and `0`). -/
def resolveSampleRate (paramsRate : Option Nat) (frameRate : Nat) : Nat :=
  match paramsRate with
  | none => frameRate
  | some r => if r = 0 then frameRate else r

/-- Chunk-size computation of `BaseOutputTransport.start`:
`int(sample_rate / 100) * channels * 2` bytes per 10 ms, times
`audio_out_10ms_chunks`. -/
def audioChunkSizeOf (sample_rate channels chunks10ms : Nat) : Nat :=
  (sample_rate / 100) * channels * 2 * chunks10ms

/-! ## BaseInputTransport (`playground/transport/base_input.py`) -/

/-- VAD analyzer states (`VADState`). -/
inductive VADState where
  | quiet
  | starting
  | speaking
  | stopping
deriving DecidableEq, Repr

/-- Frames the input transport pushes, as far as the VAD/interruption path
is concerned. -/
inductive InEv where
  | vadUserStarted
  | vadUserStopped
  | userStarted
  | userStopped
  | startInterruption
  | stopInterruption
deriving DecidableEq, Repr

/-- Embedding of `_handle_user_interruption` for `UserStartedSpeakingFrame`
(`started = true`) or `UserStoppedSpeakingFrame`: push the user frame, and
when interruptions are allowed also push the corresponding interruption
frame out-of-band. -/
def handleUserInterruption (allowed : Bool) (started : Bool) : List InEv :=
  if started then
    InEv.userStarted :: (if allowed then [InEv.startInterruption] else [])
  else
    InEv.userStopped :: (if allowed then [InEv.stopInterruption] else [])

/-- Embedding of `BaseInputTransport._handle_vad`.  `turnTrig` is
`None` when no turn analyzer is configured and otherwise the analyzer's
`speech_triggered`; `newState` is the `_vad_analyze` result.  Returns the
new committed VAD state and the frames pushed, in push order. -/
def handleVad (turnTrig : Option Bool) (allowed : Bool)
    (newState cur : VADState) : VADState × List InEv :=
  if newState ≠ cur ∧ newState ≠ VADState.starting ∧ newState ≠ VADState.stopping then
    let canCreateUserFrames :=
      match turnTrig with
      | none => true
      | some trig => !trig
    if newState = VADState.speaking then
      (newState,
       InEv.vadUserStarted ::
         (if canCreateUserFrames then handleUserInterruption allowed true else []))
    else if newState = VADState.quiet then
      (newState,
       InEv.vadUserStopped ::
         (if canCreateUserFrames then handleUserInterruption allowed false else []))
    else (newState, [])
  else (cur, [])

/-- Folding `_handle_vad` over a sequence of analyzer outputs, as the audio
worker does across iterations, threading the committed `vad_state`. -/
def runVad (turnTrig : Option Bool) (allowed : Bool) :
    VADState → List VADState → VADState × List InEv
  | cur, [] => (cur, [])
  | cur, v :: vs =>
      let step := handleVad turnTrig allowed v cur
      let rest := runVad turnTrig allowed step.1 vs
      (rest.1, step.2 ++ rest.2)

/-- The `TransportParams` fields the input transport reads, with the two
analyzers abstracted to the data the source consults: presence of a VAD
analyzer, and `speech_triggered` of an optional turn analyzer. -/
structure InParams where
  audio_in_enabled : Bool
  audio_in_passthrough : Bool
  vad_enabled : Bool
  hasVadAnalyzer : Bool
  turnTrig : Option Bool
deriving DecidableEq, Repr

/-- State of a `BaseInputTransport`: its (mutated) params, the optional
audio ingress queue and worker task handle, and the captured sample rate. -/
structure InputState where
  params : InParams
  audio_in_queue : Option (List Nat)
  audio_task : Option Nat
  sample_rate : Nat
deriving DecidableEq, Repr

/-- Embedding of `BaseInputTransport.__init__`: stores the params but
unconditionally sets `audio_in_passthrough = True` and
`audio_in_enabled = True`, overriding the caller's configuration. -/
def inputInit (p : InParams) : InputState :=
  { params := { p with audio_in_passthrough := true, audio_in_enabled := true }
    audio_in_queue := none
    audio_task := none
    sample_rate := 0 }

/-- Embedding of `BaseInputTransport.start`: capture the sample rate and,
when `audio_in_enabled`, allocate the ingress queue and spawn the audio
worker task. -/
def inputStart (s : InputState) (frameRate : Nat) : InputState :=
  let s1 := { s with sample_rate := frameRate }
  if s1.params.audio_in_enabled then
    { s1 with audio_in_queue := some [], audio_task := some 0 }
  else s1

/-- Items the audio worker pushes downstream in one iteration of
`_audio_task_handler`: VAD/interruption frames first (when a VAD analyzer
is configured), then — only if `audio_in_passthrough` — the dequeued audio
frame itself (`Sum.inr tag`).  The turn-analyzer hook `_run_turn_analyzer`
is a `pass` in the source and contributes nothing. -/
def audioWorkerStep (p : InParams) (allowed : Bool) (vadNew cur : VADState)
    (tag : Nat) : VADState × List (InEv ⊕ Nat) :=
  let vadRes :=
    if p.hasVadAnalyzer then handleVad p.turnTrig allowed vadNew cur
    else (cur, [])
  (vadRes.1,
   vadRes.2.map Sum.inl ++ (if p.audio_in_passthrough then [Sum.inr tag] else []))

/-! ## Protobuf serializer (`nanocat/serializers/protobuf.py`)

Modelled from the spec: the repository files `nanocat/frames/frames.py`
(the frame dataclasses) and `nanocat/frames/protobufs/frames_pb2.py`
(generated protobuf messages) are not under `src/`.  Following the spec,
every frame carries the envelope fields `id` (unique 64-bit identifier),
`name` and optional `pts`; the wire format is a tagged union with one-of
variants `text`, `audio`, `transcription` and `message`; proto3 scalar
fields default to `0` / the empty string / empty bytes.  The serializer
logic itself (variant tables, truthiness-guarded field copies, envelope
restoration) is translated from `protobuf.py`. -/

/-- Frame envelope (`id`, `name`, `pts`) from the spec's data model. -/
structure Envelope where
  id : Nat
  name : String
  pts : Option Nat
deriving DecidableEq, Repr

/-- Payload variants handled by `ProtobufFrameSerializer`.  `MessageFrame`
is the serializer-local dataclass wrapping transport messages; it has a
single `data` field and no envelope. -/
inductive FrameVariant where
  | text (text : String)
  | outputAudio (audio : List Nat) (sample_rate : Nat) (num_channels : Nat)
  | inputAudio (audio : List Nat) (sample_rate : Nat) (num_channels : Nat)
  | transcription (text : String) (user_id : String) (timestamp : String)
  | message (data : String)
deriving DecidableEq, Repr

/-- A Python frame object: envelope plus payload variant. -/
structure PyFrame where
  env : Envelope
  v : FrameVariant
deriving DecidableEq, Repr

/-- Modelled from the spec: proto message for the `text` one-of variant,
with proto3 defaults. -/
structure ProtoText where
  id : Nat := 0
  name : String := ""
  pts : Nat := 0
  text : String := ""
deriving DecidableEq, Repr

/-- Modelled from the spec: proto message for the `audio` one-of variant. -/
structure ProtoAudio where
  id : Nat := 0
  name : String := ""
  pts : Nat := 0
  audio : List Nat := []
  sample_rate : Nat := 0
  num_channels : Nat := 0
deriving DecidableEq, Repr

/-- Modelled from the spec: proto message for the `transcription` one-of
variant. -/
structure ProtoTranscription where
  id : Nat := 0
  name : String := ""
  pts : Nat := 0
  text : String := ""
  user_id : String := ""
  timestamp : String := ""
deriving DecidableEq, Repr

/-- Modelled from the spec: proto message for the `message` one-of variant
(the `MessageFrame` dataclass has only `data`). -/
structure ProtoMessage where
  data : String := ""
deriving DecidableEq, Repr

/-- Modelled from the spec: the tagged-union `Frame` proto with its one-of
variants.  `SerializeToString` / `FromString` are the protobuf library's
faithful wire codec and are elided: the round trip is composed at the
message level. -/
inductive ProtoFrame where
  | text (t : ProtoText)
  | audio (a : ProtoAudio)
  | transcription (t : ProtoTranscription)
  | message (m : ProtoMessage)
deriving DecidableEq, Repr

/-- Truthiness-guarded field copy of `serialize`
(`if value and hasattr(...): setattr(...)`) for an integer field: a falsy
(zero) value is skipped, leaving the proto3 default `0`. -/
def copyNat (v : Nat) : Nat := if v != 0 then v else 0

/-- Truthiness-guarded copy for a string field. -/
def copyStr (v : String) : String := if v != "" then v else ""

/-- Truthiness-guarded copy for a bytes field. -/
def copyBytes (v : List Nat) : List Nat := if v != [] then v else []

/-- Truthiness-guarded copy for the optional `pts` envelope field: `None`
and `0` are both falsy, leaving the proto3 default `0`. -/
def copyPts (v : Option Nat) : Nat :=
  match v with
  | none => 0
  | some p => if p != 0 then p else 0

namespace ProtobufFrameSerializer

/-- Embedding of `ProtobufFrameSerializer.serialize`: frames whose type is
in `SERIALIZABLE_TYPES` (`TextFrame`, `OutputAudioRawFrame`,
`TranscriptionFrame`, `MessageFrame`) map to their one-of variant with each
truthy dataclass field copied; other types (in particular
`InputAudioRawFrame`) return `None`. -/
def serialize (f : PyFrame) : Option ProtoFrame :=
  match f.v with
  | FrameVariant.text t =>
      some (ProtoFrame.text
        ⟨copyNat f.env.id, copyStr f.env.name, copyPts f.env.pts, copyStr t⟩)
  | FrameVariant.outputAudio a r c =>
      some (ProtoFrame.audio
        ⟨copyNat f.env.id, copyStr f.env.name, copyPts f.env.pts,
         copyBytes a, copyNat r, copyNat c⟩)
  | FrameVariant.inputAudio _ _ _ => none
  | FrameVariant.transcription t u ts =>
      some (ProtoFrame.transcription
        ⟨copyNat f.env.id, copyStr f.env.name, copyPts f.env.pts,
         copyStr t, copyStr u, copyStr ts⟩)
  | FrameVariant.message d => some (ProtoFrame.message ⟨copyStr d⟩)

/-- Envelope restoration of `deserialize`: the freshly constructed frame
starts with a constructor-assigned `id` and `name` and `pts = None`; each
special field is overwritten only when the proto value is truthy
(`if id: setattr(instance, "id", id)` and analogously). -/
def restoreEnv (freshId : Nat) (freshName : String)
    (id : Nat) (name : String) (pts : Nat) : Envelope :=
  { id := if id != 0 then id else freshId
    name := if name != "" then name else freshName
    pts := if pts != 0 then some pts else none }

/-- Embedding of `ProtobufFrameSerializer.deserialize`: the one-of tag is
looked up in `DESERIALIZABLE_FIELDS` (`text ↦ TextFrame`,
`audio ↦ InputAudioRawFrame`, `transcription ↦ TranscriptionFrame`; no
entry for `message`, which therefore returns `None`); the instance is
constructed from the non-special proto fields and the envelope is restored
from the truthy special fields. -/
def deserialize (freshId : Nat) (freshName : String) (p : ProtoFrame) :
    Option PyFrame :=
  match p with
  | ProtoFrame.text t =>
      some ⟨restoreEnv freshId freshName t.id t.name t.pts, FrameVariant.text t.text⟩
  | ProtoFrame.audio a =>
      some ⟨restoreEnv freshId freshName a.id a.name a.pts,
            FrameVariant.inputAudio a.audio a.sample_rate a.num_channels⟩
  | ProtoFrame.transcription t =>
      some ⟨restoreEnv freshId freshName t.id t.name t.pts,
            FrameVariant.transcription t.text t.user_id t.timestamp⟩
  | ProtoFrame.message _ => none

/-- The serializer round trip `deserialize(serialize(f))`. -/
def roundTrip (freshId : Nat) (freshName : String) (f : PyFrame) :
    Option PyFrame :=
  (serialize f).bind (deserialize freshId freshName)

end ProtobufFrameSerializer

/-! ## Lemmas about the clock worker -/

namespace MediaSender

theorem entryLe_iff (a b : ClockEntry) :
    entryLe a b = true ↔ (a.pts < b.pts ∨ (a.pts = b.pts ∧ a.fid ≤ b.fid)) := by
  simp [entryLe, Nat.blt_eq, Nat.ble_eq, beq_iff_eq]

theorem entryLe_refl (a : ClockEntry) : entryLe a a = true := by
  rw [entryLe_iff]; omega

theorem entryLe_total (a b : ClockEntry) :
    entryLe a b = true ∨ entryLe b a = true := by
  rw [entryLe_iff, entryLe_iff]; omega

theorem entryLe_trans {a b c : ClockEntry} (h1 : entryLe a b = true)
    (h2 : entryLe b c = true) : entryLe a c = true := by
  rw [entryLe_iff] at h1 h2 ⊢; omega

theorem selMin_le (m : ClockEntry) (l : List ClockEntry) :
    ∀ x ∈ m :: l, entryLe (selMin m l) x = true := by
  induction l generalizing m with
  | nil =>
      intro x hx
      simp only [List.mem_singleton] at hx
      subst hx
      exact entryLe_refl x
  | cons y ys ih =>
      intro x hx
      simp only [selMin]
      rcases List.mem_cons.mp hx with rfl | hx1
      · by_cases h : entryLe x y
        · rw [if_pos h]; exact ih x x (List.mem_cons_self x ys)
        · rw [if_neg h]
          have hyx : entryLe y x = true := by
            rcases entryLe_total x y with h1 | h1
            · exact absurd h1 h
            · exact h1
          exact entryLe_trans (ih y y (List.mem_cons_self y ys)) hyx
      · rcases List.mem_cons.mp hx1 with rfl | hx2
        · by_cases h : entryLe m x
          · rw [if_pos h]
            exact entryLe_trans (ih m m (List.mem_cons_self m ys)) h
          · rw [if_neg h]; exact ih x x (List.mem_cons_self x ys)
        · by_cases h : entryLe m y
          · rw [if_pos h]; exact ih m x (List.mem_cons_of_mem m hx2)
          · rw [if_neg h]; exact ih y x (List.mem_cons_of_mem y hx2)

theorem popMin_spec {q : List ClockEntry} {m : ClockEntry}
    {rest : List ClockEntry} (h : popMin q = some (m, rest)) :
    m ∈ q ∧ (∀ x ∈ q, entryLe m x = true) ∧ ∀ y ∈ rest, y ∈ q := by
  cases q with
  | nil => simp [popMin] at h
  | cons x xs =>
      simp only [popMin, Option.some.injEq, Prod.mk.injEq] at h
      obtain ⟨hm, hrest⟩ := h
      subst hm
      refine ⟨?_, selMin_le x xs, ?_⟩
      · rcases selMin_mem x xs with h1 | h1
        · rw [h1]; exact List.mem_cons_self x xs
        · exact List.mem_cons_of_mem x h1
      · intro y hy
        rw [← hrest] at hy
        exact List.mem_of_mem_erase hy

theorem clockRun_mem (clock : Nat → Nat) (i : Nat) (q : List ClockEntry) :
    ∀ x ∈ clockRun clock i q, x.1 ∈ q := by
  induction i, q using clockRun.induct clock with
  | case1 i q hpop =>
      intro x hx
      rw [clockRun, hpop] at hx
      simp at hx
  | case2 i q m rest hpop hend =>
      intro x hx
      rw [clockRun, hpop] at hx
      simp [hend] at hx
  | case3 i q m rest hpop hend ih =>
      intro x hx
      rw [clockRun, hpop] at hx
      simp only [hend, if_neg, Bool.false_eq_true, not_false_iff,
        List.mem_cons] at hx
      rcases hx with rfl | hx1
      · exact (popMin_spec hpop).1
      · exact (popMin_spec hpop).2.2 _ (ih x hx1)

theorem clockRun_pairwise (clock : Nat → Nat) (i : Nat) (q : List ClockEntry) :
    List.Pairwise (fun a b => entryLe a.1 b.1 = true) (clockRun clock i q) := by
  induction i, q using clockRun.induct clock with
  | case1 i q hpop => rw [clockRun, hpop]; exact List.Pairwise.nil
  | case2 i q m rest hpop hend =>
      rw [clockRun, hpop]
      simp [hend]
  | case3 i q m rest hpop hend ih =>
      rw [clockRun, hpop]
      simp only [hend, if_neg, Bool.false_eq_true, not_false_iff]
      refine List.Pairwise.cons ?_ ih
      intro y hy
      exact (popMin_spec hpop).2.1 y.1
        ((popMin_spec hpop).2.2 _ (clockRun_mem clock (i + 1) rest y hy))

end MediaSender

/-! ## Chunking lemmas -/

namespace MediaSender

theorem chunkAux_join (csize : Nat) (hc : 0 < csize) :
    ∀ (fuel : Nat) (buf : List Nat), buf.length ≤ fuel →
      (chunkAux csize fuel buf).1.flatten ++ (chunkAux csize fuel buf).2 = buf := by
  intro fuel
  induction fuel with
  | zero =>
      intro buf hle
      have : buf = [] := List.eq_nil_of_length_eq_zero (Nat.le_zero.mp hle)
      subst this
      simp [chunkAux]
  | succ n ihn =>
      intro buf hle
      by_cases h : csize ≤ buf.length
      · have hdrop : (buf.drop csize).length ≤ n := by
          rw [List.length_drop]; omega
        have hrec := ihn (buf.drop csize) hdrop
        simp only [chunkAux, if_pos h, List.flatten_cons, List.append_assoc, hrec,
          List.take_append_drop]
      · simp [chunkAux, h]

theorem chunkLoop_join {csize : Nat} (hc : 0 < csize) (buf : List Nat) :
    (chunkLoop csize buf).1.flatten ++ (chunkLoop csize buf).2 = buf :=
  chunkAux_join csize hc buf.length buf le_rfl

/-- Closed form of the chunking loop on a constant buffer: `n` bytes split
into `n / csize` full chunks with `n % csize` bytes left over. -/
theorem chunkAux_replicate (csize : Nat) (hc : 0 < csize) (x : Nat) :
    ∀ (fuel n : Nat), n ≤ fuel →
      chunkAux csize fuel (List.replicate n x) =
        (List.replicate (n / csize) (List.replicate csize x),
         List.replicate (n % csize) x) := by
  intro fuel
  induction fuel with
  | zero =>
      intro n hle
      have hn : n = 0 := Nat.le_zero.mp hle
      subst hn
      simp [chunkAux]
  | succ m ihm =>
      intro n hle
      by_cases h : csize ≤ n
      · have htake : (List.replicate n x).take csize = List.replicate csize x := by
          rw [List.take_replicate, Nat.min_eq_left h]
        have hdrop : (List.replicate n x).drop csize = List.replicate (n - csize) x := by
          rw [List.drop_replicate]
        have hrec := ihm (n - csize) (by omega)
        have hlen : csize ≤ (List.replicate n x).length := by
          rw [List.length_replicate]; exact h
        have hdiv : n / csize = (n - csize) / csize + 1 :=
          Nat.div_eq_sub_div hc h
        have hmod : n % csize = (n - csize) % csize :=
          (Nat.mod_eq_sub_mod h).symm ▸ rfl
        rw [Nat.mod_eq_sub_mod h]
        simp only [chunkAux, if_pos hlen, hdrop, hrec, hdiv, htake,
          List.replicate_succ]
      · have hlen : ¬ csize ≤ (List.replicate n x).length := by
          rw [List.length_replicate]; exact h
        simp only [chunkAux, if_neg hlen]
        rw [Nat.div_eq_of_lt (by omega), Nat.mod_eq_of_lt (by omega)]
        simp

/-- Feeding an audio frame at the sender rate into a sender whose buffer
and queue are empty produces chunks cut from that frame's bytes alone: the
enqueued chunk bytes re-concatenate with the leftover buffer to exactly the
frame's payload. -/
theorem handleAudioFrame_from_empty (soxr : List Nat → Nat → Nat → List Nat)
    (cfg : SenderCfg) (f : OutFrame) (s : SenderState)
    (hbuf : s.audio_buffer = []) (hq : s.audio_queue = [])
    (hrate : f.sample_rate = cfg.sample_rate)
    (hen : cfg.audio_out_enabled = true)
    (hchunk : 0 < cfg.audio_chunk_size) :
    ((handleAudioFrame soxr cfg f s).audio_queue.map OutFrame.audio).flatten ++
      (handleAudioFrame soxr cfg f s).audio_buffer = f.audio := by
  simp only [handleAudioFrame, hen, if_pos, SOXRAudioResampler.resample, hrate,
    if_true, hbuf, hq, List.nil_append, List.map_append, List.map_map]
  have hmap : (OutFrame.audio ∘ fun c => (⟨f.cls, c, cfg.sample_rate, f.num_channels⟩ : OutFrame)) =
      fun c => c := rfl
  rw [hmap]
  simp only [List.map_id']
  exact chunkLoop_join hchunk f.audio

end MediaSender

/-! ## Bot-speaking alternation lemmas -/

theorem projDir_append (d : Dir) (a b : List BotEv) :
    projDir d (a ++ b) = projDir d a ++ projDir d b := by
  simp [projDir]

theorem botRun_alt (cfg : SenderCfg) (calls : List MediaSender.BotCall) :
    ∀ (s : SenderState) (d : Dir),
      altFrom (!s.bot_speaking)
        (projDir d (MediaSender.botRun cfg s calls).2) = true := by
  induction calls with
  | nil => intro s d; rfl
  | cons c cs ih =>
      intro s d
      cases c with
      | started =>
          by_cases hb : s.bot_speaking
          · have h2 := ih s d
            simp only [MediaSender.botRun, MediaSender.botStartedSpeaking, hb,
              if_true, List.nil_append]
            simpa [hb] using h2
          · have h2 := ih { s with bot_speaking := true } d
            simp only [MediaSender.botRun, MediaSender.botStartedSpeaking, hb,
              Bool.false_eq_true, if_false, projDir_append,
              Bool.not_false] at h2 ⊢
            cases d <;>
              simpa [projDir, altFrom, hb] using h2
      | stopped =>
          by_cases hb : s.bot_speaking
          · have h2 := ih { s with bot_speaking := false, audio_buffer := [] } d
            simp only [MediaSender.botRun, MediaSender.botStoppedSpeaking, hb,
              if_true, projDir_append] at h2 ⊢
            cases d <;>
              simpa [projDir, altFrom, hb] using h2
          · have h2 := ih s d
            simp only [MediaSender.botRun, MediaSender.botStoppedSpeaking, hb,
              Bool.false_eq_true, if_false, List.nil_append]
            simpa [hb] using h2

theorem botRun_dest (cfg : SenderCfg) (calls : List MediaSender.BotCall) :
    ∀ s : SenderState,
      ((MediaSender.botRun cfg s calls).2.all
        (fun e => e.dest == cfg.destination)) = true := by
  induction calls with
  | nil => intro s; rfl
  | cons c cs ih =>
      intro s
      cases c with
      | started =>
          by_cases hb : s.bot_speaking <;>
            simp [MediaSender.botRun, MediaSender.botStartedSpeaking, hb,
              List.all_append, ih]
      | stopped =>
          by_cases hb : s.bot_speaking <;>
            simp [MediaSender.botRun, MediaSender.botStoppedSpeaking, hb,
              List.all_append, ih]

/-! ## Task-handle invariant lemmas -/

/-- The ghost live-task lists track the task handles exactly: the live
tasks are precisely the ones the handles point to. -/
def taskInv (s : SenderState) : Prop :=
  s.liveAudio = s.audio_task.toList ∧ s.liveClock = s.clock_task.toList

theorem taskInv_new : taskInv MediaSender.new := ⟨rfl, rfl⟩

theorem taskInv_createAudio {s : SenderState} (h : taskInv s) :
    taskInv (MediaSender.createAudioTask s) := by
  obtain ⟨h1, h2⟩ := h
  cases ha : s.audio_task with
  | some t => simpa [MediaSender.createAudioTask, ha] using ⟨h1, h2⟩
  | none =>
      rw [ha] at h1
      simp only [Option.toList] at h1
      simp [MediaSender.createAudioTask, ha, taskInv, Option.toList, h1, h2]

theorem taskInv_cancelAudio {s : SenderState} (h : taskInv s) :
    taskInv (MediaSender.cancelAudioTask s) := by
  obtain ⟨h1, h2⟩ := h
  cases ha : s.audio_task with
  | some t =>
      rw [ha] at h1
      simp only [Option.toList] at h1
      simp [MediaSender.cancelAudioTask, ha, taskInv, Option.toList, h1, h2,
        List.erase_cons_head]
  | none => simpa [MediaSender.cancelAudioTask, ha] using ⟨h1, h2⟩

theorem taskInv_createClock {s : SenderState} (h : taskInv s) :
    taskInv (MediaSender.createClockTask s) := by
  obtain ⟨h1, h2⟩ := h
  cases hc : s.clock_task with
  | some t => simpa [MediaSender.createClockTask, hc] using ⟨h1, h2⟩
  | none =>
      rw [hc] at h2
      simp only [Option.toList] at h2
      simp [MediaSender.createClockTask, hc, taskInv, Option.toList, h1, h2]

theorem taskInv_cancelClock {s : SenderState} (h : taskInv s) :
    taskInv (MediaSender.cancelClockTask s) := by
  obtain ⟨h1, h2⟩ := h
  cases hc : s.clock_task with
  | some t =>
      rw [hc] at h2
      simp only [Option.toList] at h2
      simp [MediaSender.cancelClockTask, hc, taskInv, Option.toList, h1, h2,
        List.erase_cons_head]
  | none => simpa [MediaSender.cancelClockTask, hc] using ⟨h1, h2⟩

theorem taskInv_botStopped {cfg : SenderCfg} {s : SenderState} (h : taskInv s) :
    taskInv (MediaSender.botStoppedSpeaking cfg s).1 := by
  by_cases hb : s.bot_speaking <;>
    simpa [MediaSender.botStoppedSpeaking, hb, taskInv] using h

theorem taskInv_applyOp (cfg : SenderCfg) (op : MediaSender.SenderOp)
    {s : SenderState} (h : taskInv s) :
    taskInv (MediaSender.applyOp cfg s op) := by
  cases op with
  | createAudio => exact taskInv_createAudio h
  | cancelAudio => exact taskInv_cancelAudio h
  | createClock => exact taskInv_createClock h
  | cancelClock => exact taskInv_cancelClock h
  | interrupt =>
      by_cases ha : cfg.interruptions_allowed
      · simp only [MediaSender.applyOp, MediaSender.handleInterruptions, ha,
          if_true]
        exact taskInv_botStopped
          (taskInv_createAudio (taskInv_createClock
            (taskInv_cancelClock (taskInv_cancelAudio h))))
      · simpa [MediaSender.applyOp, MediaSender.handleInterruptions, ha] using h
  | startOp =>
      have hbuf : taskInv { s with audio_buffer := ([] : List Nat) } := h
      exact taskInv_createAudio (taskInv_createClock hbuf)
  | cancelFrame => exact taskInv_cancelClock (taskInv_cancelAudio h)

theorem taskInv_applyOps (cfg : SenderCfg) (ops : List MediaSender.SenderOp) :
    ∀ s : SenderState, taskInv s → taskInv (MediaSender.applyOps cfg s ops) := by
  induction ops with
  | nil => intro s h; exact h
  | cons op rest ih =>
      intro s h
      exact ih (MediaSender.applyOp cfg s op) (taskInv_applyOp cfg op h)

theorem toList_length_le_one (o : Option Nat) : o.toList.length ≤ 1 := by
  cases o <;> simp [Option.toList]

/-! ## Miscellaneous helper lemmas -/

theorem handleVad_turnTrig_no_user (allowed : Bool) (v c : VADState) :
    ((handleVad (some true) allowed v c).2.countP
      (fun e => e == InEv.userStarted || e == InEv.userStopped)) = 0 := by
  cases allowed <;> cases v <;> cases c <;> decide

theorem count_inr_map_inl (t : Nat) (l : List InEv) :
    List.count (Sum.inr t : InEv ⊕ Nat) (l.map Sum.inl) = 0 := by
  induction l with
  | nil => rfl
  | cons x xs ih =>
      have hne : ((Sum.inl x : InEv ⊕ Nat) == Sum.inr t) = false := rfl
      simp [List.count_cons, ih, hne]

theorem copyNat_id (v : Nat) : copyNat v = v := by
  by_cases h : v = 0 <;> simp [copyNat, h]

theorem copyStr_id (v : String) : copyStr v = v := by
  by_cases h : v = "" <;> simp [copyStr, h]

theorem copyBytes_id (v : List Nat) : copyBytes v = v := by
  by_cases h : v = ([] : List Nat) <;> simp [copyBytes, h]

theorem restore_copy (freshId : Nat) (freshName : String) (env : Envelope)
    (hid : env.id ≠ 0) (hname : env.name ≠ "")
    (hpts : env.pts = none ∨ ∃ p, env.pts = some p ∧ p ≠ 0) :
    ProtobufFrameSerializer.restoreEnv freshId freshName
      env.id env.name (copyPts env.pts) = env := by
  cases env with
  | mk i n p =>
      simp only at hid hname hpts
      have h1 : (i != 0) = true := bne_iff_ne.mpr hid
      have h2 : (n != "") = true := bne_iff_ne.mpr hname
      rcases hpts with hp | ⟨q, hq, hq0⟩
      · subst hp
        simp [ProtobufFrameSerializer.restoreEnv, copyPts, h1, h2]
      · subst hq
        have h3 : (q != 0) = true := bne_iff_ne.mpr hq0
        simp [ProtobufFrameSerializer.restoreEnv, copyPts, h1, h2, h3]

/-! ## Claim theorems -/

/-- C8: for every byte string `a` and every rate `r`,
`resample(a, r, r)` returns `a` unchanged; in particular
`resample([1,0,2,0,3,0], 16000, 16000)` returns the same 6 bytes. -/
theorem resample_identity (soxr : List Nat → Nat → Nat → List Nat)
    (a : List Nat) (r : Nat) :
    SOXRAudioResampler.resample soxr a r r = a ∧
    SOXRAudioResampler.resample soxr [1, 0, 2, 0, 3, 0] 16000 16000 =
      [1, 0, 2, 0, 3, 0] := by
  constructor <;> simp [SOXRAudioResampler.resample]

/-- C4: with `sample_rate = 16000`, `channels = 1`,
`audio_out_10ms_chunks = 4` the computed `audio_chunk_size` is
`(16000/100)*1*2*4 = 1280` bytes, and one 3200-byte audio frame at the
output rate enqueues exactly two chunks of 1280 bytes (each of the same
concrete class as the source, carrying the sender's sample rate and the
source channel count) and leaves 640 bytes in the buffer. -/
theorem chunking_s2 (soxr : List Nat → Nat → Nat → List Nat) (k : AudioClass) :
    audioChunkSizeOf (resolveSampleRate none 16000) 1 4 = 1280 ∧
    (MediaSender.handleAudioFrame soxr
        ⟨none, 16000, audioChunkSizeOf (resolveSampleRate none 16000) 1 4, true, true⟩
        ⟨k, List.replicate 3200 7, 16000, 1⟩ MediaSender.new).audio_queue =
      [⟨k, List.replicate 1280 7, 16000, 1⟩,
       ⟨k, List.replicate 1280 7, 16000, 1⟩] ∧
    (MediaSender.handleAudioFrame soxr
        ⟨none, 16000, audioChunkSizeOf (resolveSampleRate none 16000) 1 4, true, true⟩
        ⟨k, List.replicate 3200 7, 16000, 1⟩ MediaSender.new).audio_buffer =
      List.replicate 640 7 := by
  have hcs : audioChunkSizeOf (resolveSampleRate none 16000) 1 4 = 1280 := rfl
  have hchunk := MediaSender.chunkAux_replicate 1280 (by decide) 7 3200 3200 le_rfl
  have hdiv : 3200 / 1280 = 2 := by norm_num
  have hmod : 3200 % 1280 = 640 := by norm_num
  rw [hdiv, hmod] at hchunk
  have hloop : MediaSender.chunkLoop 1280 (List.replicate 3200 7) =
      (List.replicate 2 (List.replicate 1280 7), List.replicate 640 7) := by
    unfold MediaSender.chunkLoop
    rw [List.length_replicate]
    exact hchunk
  have hres : SOXRAudioResampler.resample soxr (List.replicate 3200 7) 16000 16000 =
      List.replicate 3200 7 := by
    simp only [SOXRAudioResampler.resample, reduceIte]
  rw [hcs]
  refine ⟨rfl, ?_, ?_⟩
  · simp only [MediaSender.handleAudioFrame, MediaSender.new, hres, hloop,
      List.nil_append, List.map_replicate, reduceIte]
    rfl
  · simp only [MediaSender.handleAudioFrame, MediaSender.new, hres, hloop,
      List.nil_append, List.map_replicate, reduceIte]

/-- C6 counterexample: a downstream non-system, non-audio frame with
`pts = 0` reaches `_handle_frame`, but the truthiness test `if frame.pts:`
sends it to `handle_sync_frame`, not to `handle_timed_frame` as the claim
requires for every non-null `pts`. -/
theorem pts_zero_routed_sync :
    processFrameAction OutKind.otherFrame (some 0) Dir.downstream =
      OutAction.handleFrame ∧
    handleFrameDispatch OutKind.otherFrame (some 0) true =
      SenderDispatch.syncFrame ∧
    handleFrameDispatch OutKind.otherFrame (some 0) true ≠
      SenderDispatch.timedFrame := by
  refine ⟨rfl, rfl, by decide⟩

/-- C6 amended: a downstream frame that is none of the earlier dispatch
cases is routed to the registered destination sender's
`handle_timed_frame` exactly when its `pts` is non-null and non-zero, and
to `handle_sync_frame` when `pts` is null or zero; `pts = 0` is falsy. -/
theorem pts_routing (pts : Option Nat) (p : Nat) :
    processFrameAction OutKind.otherFrame pts Dir.downstream =
      OutAction.handleFrame ∧
    handleFrameDispatch OutKind.otherFrame pts true =
      (if ptsTruthy pts then SenderDispatch.timedFrame
       else SenderDispatch.syncFrame) ∧
    ptsTruthy none = false ∧
    ptsTruthy (some 0) = false ∧
    ptsTruthy (some p) = (p != 0) := by
  refine ⟨?_, ?_, rfl, rfl, rfl⟩
  · cases hpt : ptsTruthy pts <;> simp [processFrameAction, hpt]
  · simp [handleFrameDispatch]

/-- C5: with a turn analyzer reporting `speech_triggered = true`, a
committed VAD transition to SPEAKING pushes exactly
`VADUserStartedSpeakingFrame` and no user frame, a committed transition to
QUIET pushes exactly `VADUserStoppedSpeakingFrame`, any run pushes zero
`UserStartedSpeakingFrame`/`UserStoppedSpeakingFrame`, and the
QUIET→SPEAKING→QUIET sequence yields exactly one frame of each VAD kind. -/
theorem vad_turn_dedup (allowed : Bool) (cur st : VADState)
    (seq : List VADState) :
    ((handleVad (some true) allowed VADState.speaking cur).2 =
      if cur = VADState.speaking then [] else [InEv.vadUserStarted]) ∧
    ((handleVad (some true) allowed VADState.quiet cur).2 =
      if cur = VADState.quiet then [] else [InEv.vadUserStopped]) ∧
    ((runVad (some true) allowed st seq).2.countP
      (fun e => e == InEv.userStarted || e == InEv.userStopped) = 0) ∧
    ((runVad (some true) allowed VADState.quiet
        [VADState.speaking, VADState.quiet]).2 =
      [InEv.vadUserStarted, InEv.vadUserStopped]) := by
  refine ⟨?_, ?_, ?_, ?_⟩
  · cases allowed <;> cases cur <;> decide
  · cases allowed <;> cases cur <;> decide
  · induction seq generalizing st with
    | nil => simp [runVad]
    | cons v vs ih =>
        simp [runVad, List.countP_append, handleVad_turnTrig_no_user, ih]
  · cases allowed <;> decide

/-- C2: over any timeline of `_bot_started_speaking` /
`_bot_stopped_speaking` calls from the initial state, the pushed
`BotStartedSpeakingFrame` / `BotStoppedSpeakingFrame` sequences strictly
alternate beginning with Started in each push direction, every pushed
frame carries `transport_destination` equal to the sender's destination,
and the initial `bot_speaking` state is false. -/
theorem bot_speaking_strict_alternation (cfg : SenderCfg)
    (calls : List MediaSender.BotCall) :
    MediaSender.new.bot_speaking = false ∧
    altFrom true (projDir Dir.downstream
      (MediaSender.botRun cfg MediaSender.new calls).2) = true ∧
    altFrom true (projDir Dir.upstream
      (MediaSender.botRun cfg MediaSender.new calls).2) = true ∧
    ((MediaSender.botRun cfg MediaSender.new calls).2.all
      (fun e => e.dest == cfg.destination)) = true := by
  refine ⟨rfl, ?_, ?_, botRun_dest cfg calls MediaSender.new⟩
  · simpa using botRun_alt cfg calls MediaSender.new Dir.downstream
  · simpa using botRun_alt cfg calls MediaSender.new Dir.upstream

/-- C10: `_create_audio_task` / `_create_clock_task` are no-ops when the
corresponding handle is already set, the cancel helpers reset the handle
to `None`, and over any sequence of task-touching operations from the
initial state at most one audio task and one clock task are live. -/
theorem single_live_task_invariant (cfg : SenderCfg) (s : SenderState)
    (t : Nat) (ops : List MediaSender.SenderOp) :
    (s.audio_task = some t → MediaSender.createAudioTask s = s) ∧
    (s.clock_task = some t → MediaSender.createClockTask s = s) ∧
    (MediaSender.cancelAudioTask s).audio_task = none ∧
    (MediaSender.cancelClockTask s).clock_task = none ∧
    (MediaSender.applyOps cfg MediaSender.new ops).liveAudio.length ≤ 1 ∧
    (MediaSender.applyOps cfg MediaSender.new ops).liveClock.length ≤ 1 := by
  refine ⟨?_, ?_, ?_, ?_, ?_, ?_⟩
  · intro h; simp [MediaSender.createAudioTask, h]
  · intro h; simp [MediaSender.createClockTask, h]
  · cases h : s.audio_task <;> simp [MediaSender.cancelAudioTask, h]
  · cases h : s.clock_task <;> simp [MediaSender.cancelClockTask, h]
  · have hinv := taskInv_applyOps cfg ops MediaSender.new taskInv_new
    rw [hinv.1]; exact toList_length_le_one _
  · have hinv := taskInv_applyOps cfg ops MediaSender.new taskInv_new
    rw [hinv.2]; exact toList_length_le_one _

/-- C10 witness: the no-op and reset behaviour at a concrete state with
both handles set, and the live-task bound after a concrete operation
sequence. -/
theorem single_live_task_invariant_witness :
    (MediaSender.createAudioTask
        { MediaSender.new with audio_task := some 3, clock_task := some 3 } =
      { MediaSender.new with audio_task := some 3, clock_task := some 3 }) ∧
    (MediaSender.createClockTask
        { MediaSender.new with audio_task := some 3, clock_task := some 3 } =
      { MediaSender.new with audio_task := some 3, clock_task := some 3 }) ∧
    (MediaSender.cancelAudioTask
        { MediaSender.new with audio_task := some 3, clock_task := some 3 }).audio_task =
      none ∧
    (MediaSender.cancelClockTask
        { MediaSender.new with audio_task := some 3, clock_task := some 3 }).clock_task =
      none ∧
    (MediaSender.applyOps ⟨none, 16000, 1280, true, true⟩ MediaSender.new
      [MediaSender.SenderOp.interrupt,
       MediaSender.SenderOp.createAudio]).liveAudio.length ≤ 1 ∧
    (MediaSender.applyOps ⟨none, 16000, 1280, true, true⟩ MediaSender.new
      [MediaSender.SenderOp.interrupt,
       MediaSender.SenderOp.createAudio]).liveClock.length ≤ 1 := by
  have h := single_live_task_invariant ⟨none, 16000, 1280, true, true⟩
    { MediaSender.new with audio_task := some 3, clock_task := some 3 } 3
    [MediaSender.SenderOp.interrupt, MediaSender.SenderOp.createAudio]
  exact ⟨h.1 rfl, h.2.1 rfl, h.2.2.1, h.2.2.2.1, h.2.2.2.2.1, h.2.2.2.2.2⟩

/-- C1: the clock worker releases timed frames in non-decreasing `pts`
order with ties broken by frame id, sleeps `pts - now` nanoseconds when
`pts` is in the future, and releases frames whose `pts` has already passed
without sleeping. -/
theorem clock_releases_nondecreasing_pts (clock : Nat → Nat) (i : Nat)
    (q : List ClockEntry) (now pts : Nat) :
    List.Pairwise
      (fun a b => a.1.pts < b.1.pts ∨ (a.1.pts = b.1.pts ∧ a.1.fid ≤ b.1.fid))
      (MediaSender.clockRun clock i q) ∧
    (now < pts → MediaSender.clockWaitNs now pts = pts - now) ∧
    (pts ≤ now → MediaSender.clockWaitNs now pts = 0) := by
  refine ⟨?_, ?_, ?_⟩
  · exact (MediaSender.clockRun_pairwise clock i q).imp
      (fun h => (MediaSender.entryLe_iff _ _).mp h)
  · intro h; simp [MediaSender.clockWaitNs, h]
  · intro h; simp [MediaSender.clockWaitNs, Nat.not_lt.mpr h]

/-- C1 witness: the ordering at a concrete out-of-order queue and the two
sleep rules at concrete times. -/
theorem clock_releases_nondecreasing_pts_witness :
    List.Pairwise
      (fun a b => a.1.pts < b.1.pts ∨ (a.1.pts = b.1.pts ∧ a.1.fid ≤ b.1.fid))
      (MediaSender.clockRun (fun _ => 0) 0
        [⟨100, 2, false, 0⟩, ⟨50, 1, false, 0⟩, ⟨50, 3, false, 0⟩]) ∧
    MediaSender.clockWaitNs 3 10 = 7 ∧
    MediaSender.clockWaitNs 10 3 = 0 :=
  ⟨(clock_releases_nondecreasing_pts (fun _ => 0) 0
      [⟨100, 2, false, 0⟩, ⟨50, 1, false, 0⟩, ⟨50, 3, false, 0⟩] 3 10).1,
   (clock_releases_nondecreasing_pts (fun _ => 0) 0 [] 3 10).2.1 (by decide),
   (clock_releases_nondecreasing_pts (fun _ => 0) 0 [] 10 3).2.2 (by decide)⟩

/-- C3 counterexample: with the bot not currently marked speaking, a
residual buffer below the chunk size survives `handle_interruptions`
unchanged (the bot-stopped transition is a no-op), and the residual bytes
head the next chunk built from a later audio frame. -/
theorem interruption_residual_counterexample :
    (List.replicate 5 9).length < 1280 ∧
    ({ MediaSender.new with
        audio_buffer := List.replicate 5 9, audio_task := some 0,
        clock_task := some 1, liveAudio := [0], liveClock := [1],
        nextTaskId := 2 } : SenderState).bot_speaking = false ∧
    (MediaSender.handleInterruptions ⟨none, 16000, 1280, true, true⟩
        { MediaSender.new with
          audio_buffer := List.replicate 5 9, audio_task := some 0,
          clock_task := some 1, liveAudio := [0], liveClock := [1],
          nextTaskId := 2 }).1.audio_buffer =
      List.replicate 5 9 ∧
    List.replicate 5 9 ≠ ([] : List Nat) ∧
    (MediaSender.handleAudioFrame (fun a _ _ => a) ⟨none, 100, 8, true, true⟩
        ⟨AudioClass.outputAudioRaw, List.replicate 11 4, 100, 1⟩
        (MediaSender.handleInterruptions ⟨none, 100, 8, true, true⟩
          { MediaSender.new with
            audio_buffer := List.replicate 5 9, audio_task := some 0,
            clock_task := some 1, liveAudio := [0], liveClock := [1],
            nextTaskId := 2 }).1).audio_queue =
      [⟨AudioClass.outputAudioRaw, [9, 9, 9, 9, 9, 4, 4, 4], 100, 1⟩,
       ⟨AudioClass.outputAudioRaw, [4, 4, 4, 4, 4, 4, 4, 4], 100, 1⟩] := by
  decide

/-- C3 amended: when interruptions are allowed and the bot is currently
marked speaking, `handle_interruptions` leaves an empty audio buffer and a
fresh empty audio queue, so the next audio frame's chunks are built from
that frame's own bytes alone. -/
theorem interruption_flushes_buffer_when_speaking (cfg : SenderCfg)
    (s : SenderState) (soxr : List Nat → Nat → Nat → List Nat) (f : OutFrame)
    (hallow : cfg.interruptions_allowed = true)
    (hspeak : s.bot_speaking = true)
    (hrate : f.sample_rate = cfg.sample_rate)
    (hen : cfg.audio_out_enabled = true)
    (hchunk : 0 < cfg.audio_chunk_size) :
    (MediaSender.handleInterruptions cfg s).1.audio_buffer = [] ∧
    (MediaSender.handleInterruptions cfg s).1.audio_queue = [] ∧
    ((MediaSender.handleAudioFrame soxr cfg f
        (MediaSender.handleInterruptions cfg s).1).audio_queue.map
        OutFrame.audio).flatten ++
      (MediaSender.handleAudioFrame soxr cfg f
        (MediaSender.handleInterruptions cfg s).1).audio_buffer = f.audio := by
  have hstate : (MediaSender.handleInterruptions cfg s).1.audio_buffer = [] ∧
      (MediaSender.handleInterruptions cfg s).1.audio_queue = [] := by
    cases h1 : s.audio_task <;> cases h2 : s.clock_task <;>
      simp [MediaSender.handleInterruptions, hallow,
        MediaSender.cancelAudioTask, MediaSender.cancelClockTask,
        MediaSender.createClockTask, MediaSender.createAudioTask,
        MediaSender.botStoppedSpeaking, h1, h2, hspeak]
  exact ⟨hstate.1, hstate.2,
    MediaSender.handleAudioFrame_from_empty soxr cfg f _ hstate.1 hstate.2
      hrate hen hchunk⟩

/-- C3 witness: a concrete speaking sender with a 5-byte residual buffer;
after the interruption the buffer is empty and an 11-byte frame's chunks
re-concatenate to exactly its own bytes. -/
theorem interruption_flushes_buffer_when_speaking_witness :
    (MediaSender.handleInterruptions ⟨none, 100, 8, true, true⟩
        { MediaSender.new with
          bot_speaking := true, audio_buffer := List.replicate 5 9,
          audio_task := some 0, clock_task := some 1, liveAudio := [0],
          liveClock := [1], nextTaskId := 2 }).1.audio_buffer = [] ∧
    (MediaSender.handleInterruptions ⟨none, 100, 8, true, true⟩
        { MediaSender.new with
          bot_speaking := true, audio_buffer := List.replicate 5 9,
          audio_task := some 0, clock_task := some 1, liveAudio := [0],
          liveClock := [1], nextTaskId := 2 }).1.audio_queue = [] ∧
    ((MediaSender.handleAudioFrame (fun a _ _ => a) ⟨none, 100, 8, true, true⟩
        ⟨AudioClass.ttsAudioRaw, List.replicate 11 4, 100, 1⟩
        (MediaSender.handleInterruptions ⟨none, 100, 8, true, true⟩
          { MediaSender.new with
            bot_speaking := true, audio_buffer := List.replicate 5 9,
            audio_task := some 0, clock_task := some 1, liveAudio := [0],
            liveClock := [1], nextTaskId := 2 }).1).audio_queue.map OutFrame.audio).flatten ++
      (MediaSender.handleAudioFrame (fun a _ _ => a) ⟨none, 100, 8, true, true⟩
        ⟨AudioClass.ttsAudioRaw, List.replicate 11 4, 100, 1⟩
        (MediaSender.handleInterruptions ⟨none, 100, 8, true, true⟩
          { MediaSender.new with
            bot_speaking := true, audio_buffer := List.replicate 5 9,
            audio_task := some 0, clock_task := some 1, liveAudio := [0],
            liveClock := [1], nextTaskId := 2 }).1).audio_buffer = List.replicate 11 4 :=
  interruption_flushes_buffer_when_speaking ⟨none, 100, 8, true, true⟩
    { MediaSender.new with
      bot_speaking := true, audio_buffer := List.replicate 5 9,
      audio_task := some 0, clock_task := some 1, liveAudio := [0],
      liveClock := [1], nextTaskId := 2 }
    (fun a _ _ => a) ⟨AudioClass.ttsAudioRaw, List.replicate 11 4, 100, 1⟩
    rfl rfl rfl rfl (by decide)

/-- C9 counterexample: a transport constructed with
`audio_in_passthrough = false` and `audio_in_enabled = false` nevertheless
has both params forced to true, creates the ingress queue and worker task
on `StartFrame`, and its worker pushes the dequeued audio frame
downstream. -/
theorem audio_in_override_counterexample :
    (inputInit ⟨false, false, false, false, none⟩).params.audio_in_passthrough =
      true ∧
    (inputInit ⟨false, false, false, false, none⟩).params.audio_in_enabled =
      true ∧
    (inputStart (inputInit ⟨false, false, false, false, none⟩) 16000).audio_in_queue =
      some [] ∧
    (inputStart (inputInit ⟨false, false, false, false, none⟩) 16000).audio_task =
      some 0 ∧
    (audioWorkerStep (inputInit ⟨false, false, false, false, none⟩).params
        true VADState.quiet VADState.quiet 42).2 = [Sum.inr 42] := by
  decide

/-- C9 amended: the worker pushes the dequeued audio frame downstream
exactly when the effective `audio_in_passthrough` is true and `StartFrame`
creates the queue and worker exactly when the effective `audio_in_enabled`
is true — but the constructor unconditionally forces both effective flags
to true, overriding the construction-time configuration. -/
theorem audio_in_gating_effective (p : InParams) (s : InputState) (rate : Nat)
    (allowed : Bool) (vadNew cur : VADState) (tag : Nat) (q : InParams) :
    (inputInit p).params.audio_in_passthrough = true ∧
    (inputInit p).params.audio_in_enabled = true ∧
    (inputStart s rate).audio_task =
      (if s.params.audio_in_enabled then some 0 else s.audio_task) ∧
    (inputStart s rate).audio_in_queue =
      (if s.params.audio_in_enabled then some [] else s.audio_in_queue) ∧
    List.count (Sum.inr tag : InEv ⊕ Nat)
        (audioWorkerStep q allowed vadNew cur tag).2 =
      (if q.audio_in_passthrough then 1 else 0) := by
  refine ⟨rfl, rfl, ?_, ?_, ?_⟩
  · by_cases h : s.params.audio_in_enabled <;> simp [inputStart, h]
  · by_cases h : s.params.audio_in_enabled <;> simp [inputStart, h]
  · have hself : ((Sum.inr tag : InEv ⊕ Nat) == Sum.inr tag) = true := by
      show decide (tag = tag) = true
      exact decide_eq_true rfl
    by_cases h : q.audio_in_passthrough <;>
      cases hv : q.hasVadAnalyzer <;>
        simp [audioWorkerStep, h, hv, List.count_append, count_inr_map_inl,
          List.count_cons, hself]

/-- C7 counterexample: serializing an `OutputAudioRawFrame` and
deserializing the result yields an `InputAudioRawFrame` with the same
payload, not a frame of the same variant. -/
theorem roundtrip_variant_counterexample :
    ProtobufFrameSerializer.roundTrip 99 "fresh"
      ⟨⟨7, "n", some 5⟩, FrameVariant.outputAudio [1, 2] 16000 1⟩ =
      some ⟨⟨7, "n", some 5⟩, FrameVariant.inputAudio [1, 2] 16000 1⟩ ∧
    ProtobufFrameSerializer.roundTrip 99 "fresh"
      ⟨⟨7, "n", some 5⟩, FrameVariant.outputAudio [1, 2] 16000 1⟩ ≠
      some ⟨⟨7, "n", some 5⟩, FrameVariant.outputAudio [1, 2] 16000 1⟩ := by
  decide

/-- C7 amended: the round trip preserves payload and the envelope fields
`id`, `name` and `pts` whenever they are present and truthy; text and
transcription frames reproduce the same variant, serialized audio frames
resurface as `InputAudioRawFrame` with the same payload, and message
frames do not survive a round trip (`deserialize` returns null for them);
`InputAudioRawFrame` itself is not serializable. -/
theorem serializer_roundtrip_amended (freshId : Nat) (freshName : String)
    (env : Envelope) (t u ts d : String) (a : List Nat) (r c : Nat)
    (hid : env.id ≠ 0) (hname : env.name ≠ "")
    (hpts : env.pts = none ∨ ∃ p, env.pts = some p ∧ p ≠ 0) :
    ProtobufFrameSerializer.roundTrip freshId freshName
      ⟨env, FrameVariant.text t⟩ = some ⟨env, FrameVariant.text t⟩ ∧
    ProtobufFrameSerializer.roundTrip freshId freshName
      ⟨env, FrameVariant.transcription t u ts⟩ =
      some ⟨env, FrameVariant.transcription t u ts⟩ ∧
    ProtobufFrameSerializer.roundTrip freshId freshName
      ⟨env, FrameVariant.outputAudio a r c⟩ =
      some ⟨env, FrameVariant.inputAudio a r c⟩ ∧
    ProtobufFrameSerializer.serialize ⟨env, FrameVariant.inputAudio a r c⟩ =
      none ∧
    ProtobufFrameSerializer.roundTrip freshId freshName
      ⟨env, FrameVariant.message d⟩ = none := by
  have henv := restore_copy freshId freshName env hid hname hpts
  refine ⟨?_, ?_, ?_, rfl, rfl⟩ <;>
    simp [ProtobufFrameSerializer.roundTrip, ProtobufFrameSerializer.serialize,
      ProtobufFrameSerializer.deserialize, henv, copyStr_id, copyBytes_id,
      copyNat_id]

/-- C7 witness: a concrete frame of each variant through the round trip. -/
theorem serializer_roundtrip_amended_witness :
    ProtobufFrameSerializer.roundTrip 99 "fresh"
      ⟨⟨1, "x", some 2⟩, FrameVariant.text "hello"⟩ =
      some ⟨⟨1, "x", some 2⟩, FrameVariant.text "hello"⟩ ∧
    ProtobufFrameSerializer.roundTrip 99 "fresh"
      ⟨⟨1, "x", some 2⟩, FrameVariant.transcription "hello" "u1" "t1"⟩ =
      some ⟨⟨1, "x", some 2⟩, FrameVariant.transcription "hello" "u1" "t1"⟩ ∧
    ProtobufFrameSerializer.roundTrip 99 "fresh"
      ⟨⟨1, "x", some 2⟩, FrameVariant.outputAudio [3, 4] 8000 1⟩ =
      some ⟨⟨1, "x", some 2⟩, FrameVariant.inputAudio [3, 4] 8000 1⟩ ∧
    ProtobufFrameSerializer.serialize
      ⟨⟨1, "x", some 2⟩, FrameVariant.inputAudio [3, 4] 8000 1⟩ = none ∧
    ProtobufFrameSerializer.roundTrip 99 "fresh"
      ⟨⟨1, "x", some 2⟩, FrameVariant.message "m"⟩ = none :=
  serializer_roundtrip_amended 99 "fresh" ⟨1, "x", some 2⟩ "hello" "u1" "t1"
    "m" [3, 4] 8000 1 (by decide) (by decide)
    (Or.inr ⟨2, rfl, by decide⟩)

end Nanocat
